import Mathlib

/-!
Shallow embedding of the Deep Zoom pyramid/tile-geometry engine of the
`gopenslide` repository (files `deepzoom.go`, `helpers.go`, `props.go`).

Conventions of the embedding:
* Go `int` values are modelled as `Int` (the claims under study stay far
  below the 64-bit range, so wrap-around never occurs on their inputs).
* Go `float64` arithmetic (`math.Ceil`, `math.Min`, products of downsample
  factors) is modelled as exact arithmetic over `ℚ`; `int(f)` conversion
  (truncation toward zero) is `ratTrunc`.
* Go slice indexing that can panic at runtime is modelled with `List.get?`;
  a `none` lookup is reported as the distinguished outcome
  `DZError.panicIndexOutOfRange` (the Go program does not return an error
  there, it crashes).
* The fallible lookup `tileInfo` returns `Except DZError TileInfo`.
-/

namespace Gopenslide

/-- Embeds Go `image.Point` (fields `X`, `Y`). -/
structure Pt where
  x : Int
  y : Int
deriving DecidableEq, Repr

/-- Zero value of `image.Point`. -/
def Pt.zero : Pt := ⟨0, 0⟩

/-- Embeds `boolToInt` from helpers.go. -/
def boolToInt (b : Bool) : Int := if b then 1 else 0

/-- Digit run of a decimal numeral, most significant first. -/
def digitsVal (cs : List Char) : Int :=
  cs.foldl (fun n c => 10 * n + ((c.toNat : Int) - ('0'.toNat : Int))) 0

/-- True when the list is a nonempty run of decimal digits. -/
def allDigits (cs : List Char) : Bool :=
  !cs.isEmpty && cs.all (fun c => c.isDigit)

/-- Models Go `strconv.Atoi` restricted to its syntax behaviour: an optional
sign followed by a nonempty digit run parses to its value, anything else is a
syntax error (`none`).  The 64-bit range clamping of `Atoi` is not modelled;
the claims under study only use in-range or unparseable strings. -/
def atoiQ (s : String) : Option Int :=
  match s.toList with
  | '-' :: rest => if allDigits rest then some (-(digitsVal rest)) else none
  | '+' :: rest => if allDigits rest then some (digitsVal rest) else none
  | cs => if allDigits cs then some (digitsVal cs) else none

/-- Embeds `mustStrToInt` from helpers.go: `n, _ := strconv.Atoi(s); return n`.
On a syntax error `Atoi` returns `0`, and the error is discarded. -/
def mustStrToInt (s : String) : Int := (atoiQ s).getD 0

/-- Models Go `strconv.Itoa`; Lean's decimal rendering of `Int` agrees with it. -/
def itoa (n : Int) : String := toString n

/-- Property name constants from props.go. -/
def PropertyBoundsHeight : String := "openslide.bounds-height"

/-- Property name constant from props.go. -/
def PropertyBoundsWidth : String := "openslide.bounds-width"

/-- Property name constant from props.go. -/
def PropertyBoundsX : String := "openslide.bounds-x"

/-- Property name constant from props.go. -/
def PropertyBoundsY : String := "openslide.bounds-y"

/-- Modelled from the spec: the external source-image collaborator (the `WSI`
interface consumed by deepzoom.go; its declaration is not part of the six
source files).  Each field is one capability listed in spec §6: level count,
per-level pixel dimensions, per-level downsample factor, best level for a
requested downsample, and string property lookup (plain and with default). -/
structure WSI where
  levelCount : Int
  levelDimensions : Int → Int × Int
  levelDownsample : Int → ℚ
  bestLevelForDownsample : ℚ → Int
  propertyValue : String → String
  propertyValueWithDefault : String → String → String

/-- Embeds `getLevelDimensions` from deepzoom.go (lines 277–298).  Note the
two Go `int` divisions `mustStrToInt(...) / l0width` and `... / l0height`:
they truncate toward zero (`Int.tdiv`) *before* the per-level multiplication.
Go panics on `dimensions[0]` when the slide has no levels and on division by
zero; the embedding totalises those cases with `headD`/`tdiv` (the claims
under study always have a nonempty first level). -/
def getLevelDimensions (slide : WSI) (limitBounds : Bool) : List Pt :=
  let dimensions := (List.range slide.levelCount.toNat).map fun i =>
    Pt.mk (slide.levelDimensions i).1 (slide.levelDimensions i).2
  if !limitBounds then dimensions
  else
    let l0width := (dimensions.headD Pt.zero).x
    let l0height := (dimensions.headD Pt.zero).y
    let xRatio :=
      (mustStrToInt (slide.propertyValueWithDefault PropertyBoundsWidth (itoa l0width))).tdiv l0width
    let yRatio :=
      (mustStrToInt (slide.propertyValueWithDefault PropertyBoundsHeight (itoa l0height))).tdiv l0height
    dimensions.map fun d => Pt.mk (d.x * xRatio) (d.y * yRatio)

/-- Embeds `getLevel0Offset` from deepzoom.go (lines 141–149). -/
def getLevel0Offset (slide : WSI) (limitBounds : Bool) : Pt :=
  if limitBounds then
    Pt.mk (mustStrToInt (slide.propertyValue PropertyBoundsX))
          (mustStrToInt (slide.propertyValue PropertyBoundsY))
  else Pt.zero

/-- Embeds the Go idiom `int(math.Ceil(float64(a) / float64(b)))` used in
deepzoom.go: the exact ceiling of the rational quotient.  (For `b = 0` Go
produces `±Inf`; the embedding yields `0` — every claim has `b > 0`.) -/
def ceilDivQ (a b : Int) : Int := ⌈(a : ℚ) / (b : ℚ)⌉

/-- One halving step of `getDeepZoomLevels` (deepzoom.go lines 87–90):
`(max(1, ceil(X/2)), max(1, ceil(Y/2)))`. -/
def dzHalve (p : Pt) : Pt := Pt.mk (max 1 (ceilDivQ p.x 2)) (max 1 (ceilDivQ p.y 2))

/-- The loop of `getDeepZoomLevels` (deepzoom.go lines 82–92): the list of
dimensions from the base downwards, ending with the first element whose
components are both `≤ 1`. -/
def dzChainDown (p : Pt) : List Pt :=
  if p.x ≤ 1 ∧ p.y ≤ 1 then [p]
  else p :: dzChainDown (dzHalve p)
termination_by ((p.x - 1).toNat + (p.y - 1).toNat)
decreasing_by
  simp only [dzHalve, ceilDivQ]
  push_cast
  have hcx : (p.x : ℚ) / 2 ≤ ((⌈(p.x : ℚ) / 2⌉ : Int) : ℚ) := Int.le_ceil _
  have hcx2 : ((⌈(p.x : ℚ) / 2⌉ : Int) : ℚ) < (p.x : ℚ) / 2 + 1 := Int.ceil_lt_add_one _
  have hcy : (p.y : ℚ) / 2 ≤ ((⌈(p.y : ℚ) / 2⌉ : Int) : ℚ) := Int.le_ceil _
  have hcy2 : ((⌈(p.y : ℚ) / 2⌉ : Int) : ℚ) < (p.y : ℚ) / 2 + 1 := Int.ceil_lt_add_one _
  have hx1 : (p.x : ℚ) ≤ 2 * ((⌈(p.x : ℚ) / 2⌉ : Int) : ℚ) := by linarith
  have hx2 : 2 * ((⌈(p.x : ℚ) / 2⌉ : Int) : ℚ) < (p.x : ℚ) + 2 := by linarith
  have hy1 : (p.y : ℚ) ≤ 2 * ((⌈(p.y : ℚ) / 2⌉ : Int) : ℚ) := by linarith
  have hy2 : 2 * ((⌈(p.y : ℚ) / 2⌉ : Int) : ℚ) < (p.y : ℚ) + 2 := by linarith
  have hx1' : p.x ≤ 2 * ⌈(p.x : ℚ) / 2⌉ := by exact_mod_cast hx1
  have hx2' : 2 * ⌈(p.x : ℚ) / 2⌉ < p.x + 2 := by exact_mod_cast hx2
  have hy1' : p.y ≤ 2 * ⌈(p.y : ℚ) / 2⌉ := by exact_mod_cast hy1
  have hy2' : 2 * ⌈(p.y : ℚ) / 2⌉ < p.y + 2 := by exact_mod_cast hy2
  omega

/-- Embeds `getDeepZoomLevels` from deepzoom.go (lines 81–95): the downward
chain, reversed so that index 0 is the coarsest level. -/
def getDeepZoomLevels (zSize : Pt) : List Pt := (dzChainDown zSize).reverse

/-- Embeds `tileCount` from deepzoom.go (lines 97–99):
`int(math.Ceil(float64(zLim) / float64(tileSize)))`. -/
def tileCount (tileSize zLim : Int) : Int := ceilDivQ zLim tileSize

/-- Embeds `getDeepZoomTileLevels` from deepzoom.go (lines 101–106). -/
def getDeepZoomTileLevels (tileSize : Int) (dimensions : List Pt) : List Pt :=
  dimensions.map fun d => Pt.mk (tileCount tileSize d.x) (tileCount tileSize d.y)

/-- Embeds `levelDownsample` (deepzoom.go lines 113–117): the chosen native
level, its own downsample factor and its pixel dimensions (`image.Point`). -/
structure LevelDownsample where
  level : Int
  downsample : ℚ
  pt : Pt
deriving DecidableEq

/-- Embeds `downsample` (deepzoom.go lines 108–111). -/
structure Downsample where
  slideLevel : LevelDownsample
  bestLevelDownsample : ℚ
deriving DecidableEq

/-- Embeds `generateDownsamples` from deepzoom.go (lines 119–139). -/
def generateDownsamples (slide : WSI) (dzLevelsCount : Nat) : List Downsample :=
  (List.range dzLevelsCount).map fun dzLevel =>
    let l0ZDownsample : ℚ := 2 ^ (dzLevelsCount - 1 - dzLevel)
    let bestLevel := slide.bestLevelForDownsample l0ZDownsample
    let dims := slide.levelDimensions bestLevel
    { slideLevel :=
        { level := bestLevel
          downsample := slide.levelDownsample bestLevel
          pt := Pt.mk dims.1 dims.2 }
      bestLevelDownsample := l0ZDownsample / slide.levelDownsample bestLevel }

/-- Embeds the `DeepZoomGenerator` struct (deepzoom.go lines 13–24). -/
structure DeepZoomGenerator where
  wsi : WSI
  tileSize : Int
  overlap : Int
  limitBounds : Bool
  deepZoomTileLevels : List Pt
  deepZoomLevels : List Pt
  level0Offset : Pt
  levels : List Pt
  downsamples : List Downsample

/-- Embeds `NewDeepZoomGenerator` from deepzoom.go (lines 152–167).  Go reads
`levels[0]` (panic when the slide reports no levels); the embedding uses
`headD Pt.zero` there. -/
def NewDeepZoomGenerator (slide : WSI) (tileSize overlap : Int) (limitBounds : Bool) :
    DeepZoomGenerator :=
  let levels := getLevelDimensions slide limitBounds
  let deepZoomLevels := getDeepZoomLevels (levels.headD Pt.zero)
  let deepZoomTileLevels := getDeepZoomTileLevels tileSize deepZoomLevels
  let downsamples := generateDownsamples slide deepZoomTileLevels.length
  { wsi := slide
    tileSize := tileSize
    overlap := overlap
    limitBounds := limitBounds
    deepZoomTileLevels := deepZoomTileLevels
    deepZoomLevels := deepZoomLevels
    levels := levels
    level0Offset := getLevel0Offset slide limitBounds
    downsamples := downsamples }

/-- Embeds the `deepZoomOverlap` struct (deepzoom.go lines 203–208). -/
structure DeepZoomOverlap where
  top : Int
  left : Int
  bottom : Int
  right : Int
deriving DecidableEq, Repr

/-- Embeds `getDeepZoomOverlap` from deepzoom.go (lines 210–217). -/
def getDeepZoomOverlap (levelDimension : Pt) (overlap col row : Int) : DeepZoomOverlap :=
  { left := overlap * boolToInt (col != 0)
    top := overlap * boolToInt (row != 0)
    right := overlap * boolToInt (col != levelDimension.x - 1)
    bottom := overlap * boolToInt (row != levelDimension.y - 1) }

/-- Embeds the per-axis core of the `zSize` computation in `tileInfo`
(deepzoom.go lines 234–241): `int(math.Min(float64(tileSize),
float64(levelDim − tileSize·coord)))`.  Both operands are integer-valued, so
the `int` conversion is exact. -/
def zTileExtent (tileSize lim coord : Int) : Int := min tileSize (lim - tileSize * coord)

/-- Models Go `int(f)` conversion on an exact rational: truncation toward 0. -/
def ratTrunc (q : ℚ) : Int := if q < 0 then ⌈q⌉ else ⌊q⌋

/-- Errors and runtime panics of `tileInfo`/`Tile` (deepzoom.go lines 219–226).
`invalidLevel` is the `"invalid levelDownsample"` error, `invalidAddress` the
`"invalid address"` error; `panicIndexOutOfRange` marks the slice accesses
`dz.downsamples[dzLevel]`, `dz.deepZoomTileLevels[dzLevel]` and
`dz.deepZoomLevels[dzLevel]`, which panic in Go when out of range. -/
inductive DZError where
  | invalidLevel
  | invalidAddress
  | panicIndexOutOfRange
deriving DecidableEq, Repr

/-- Embeds the `tileInfo` result struct (deepzoom.go lines 35–40). -/
structure TileInfo where
  l0Location : Pt
  lSize : Pt
  zSize : Pt
  slideLevel : Int
deriving DecidableEq

/-- The continuous native-level location `lLocation` of `tileInfo`
(deepzoom.go lines 248–251), x axis:
`bestLevelDownsample * (zLocation.X − overlap.left)`. -/
def lLocationX (ds : Downsample) (tileSize col : Int) (ov : DeepZoomOverlap) : ℚ :=
  ds.bestLevelDownsample * (((tileSize * col : Int) : ℚ) - ((ov.left : Int) : ℚ))

/-- The continuous native-level location `lLocation`, y axis. -/
def lLocationY (ds : Downsample) (tileSize row : Int) (ov : DeepZoomOverlap) : ℚ :=
  ds.bestLevelDownsample * (((tileSize * row : Int) : ℚ) - ((ov.top : Int) : ℚ))

/-- Embeds `tileInfo` from deepzoom.go (lines 219–275).  The `lSize`
computation `int(math.Min(math.Ceil(bld·zSize), float64(X) − math.Ceil(lLoc)))`
is a min of two integer-valued floats, so it is written directly as a min of
integers. -/
def DeepZoomGenerator.tileInfo (dz : DeepZoomGenerator) (dzLevel col row : Int) :
    Except DZError TileInfo :=
  if dzLevel < 0 ∨ dzLevel > (dz.downsamples.length : Int) then .error .invalidLevel
  else if col < 0 ∨ row < 0 then .error .invalidAddress
  else
    match dz.downsamples[dzLevel.toNat]?, dz.deepZoomTileLevels[dzLevel.toNat]?,
          dz.deepZoomLevels[dzLevel.toNat]? with
    | some level, some gridDim, some levelDim =>
      let dzOverlap := getDeepZoomOverlap gridDim dz.overlap col row
      let zSize : Pt :=
        Pt.mk (zTileExtent dz.tileSize levelDim.x col + dzOverlap.left + dzOverlap.right)
              (zTileExtent dz.tileSize levelDim.y row + dzOverlap.top + dzOverlap.bottom)
      let lLocX : ℚ := lLocationX level dz.tileSize col dzOverlap
      let lLocY : ℚ := lLocationY level dz.tileSize row dzOverlap
      let l0Location : Pt :=
        Pt.mk (ratTrunc (level.slideLevel.downsample * lLocX + (dz.level0Offset.x : ℚ)))
              (ratTrunc (level.slideLevel.downsample * lLocY + (dz.level0Offset.y : ℚ)))
      let lSize : Pt :=
        Pt.mk (min ⌈level.bestLevelDownsample * (zSize.x : ℚ)⌉ (level.slideLevel.pt.x - ⌈lLocX⌉))
              (min ⌈level.bestLevelDownsample * (zSize.y : ℚ)⌉ (level.slideLevel.pt.y - ⌈lLocY⌉))
      .ok { l0Location := l0Location
            lSize := lSize
            zSize := zSize
            slideLevel := level.slideLevel.level }
    | _, _, _ => .error .panicIndexOutOfRange

/-- Embeds the `Tile` struct (deepzoom.go lines 27–33). -/
structure Tile where
  level : Int
  row : Int
  col : Int
  info : TileInfo
deriving DecidableEq

/-- Go zero value of `Tile`. -/
def Tile.zero : Tile := ⟨0, 0, 0, ⟨Pt.zero, Pt.zero, Pt.zero, 0⟩⟩

/-- Embeds the `Tile` method of `DeepZoomGenerator` (deepzoom.go lines 44–56). -/
def DeepZoomGenerator.TileAt (dz : DeepZoomGenerator) (level col row : Int) :
    Except DZError Tile :=
  match dz.tileInfo level col row with
  | .error e => .error e
  | .ok ti => .ok { level := level, row := row, col := col, info := ti }

/-- Embeds `LevelsCount` (deepzoom.go lines 175–177): `len(dz.downsamples)`. -/
def DeepZoomGenerator.LevelsCount (dz : DeepZoomGenerator) : Nat := dz.downsamples.length

/-- Embeds the `Level` method (deepzoom.go lines 185–187):
`dz.deepZoomTileLevels[level]` (Go panics out of range; `getD` totalises). -/
def DeepZoomGenerator.Level (dz : DeepZoomGenerator) (level : Nat) : Pt :=
  dz.deepZoomTileLevels.getD level Pt.zero

/-- Embeds `TileCount` (deepzoom.go lines 195–201): the running sum of
`X * Y` over `deepZoomTileLevels`. -/
def DeepZoomGenerator.TileCount (dz : DeepZoomGenerator) : Int :=
  dz.deepZoomTileLevels.foldl (fun sum d => sum + d.x * d.y) 0

/-- The loop body of `Iter` (deepzoom.go line 66): `tile, _ := dz.Tile(...)`
— the error is discarded, leaving the zero `Tile` in the error case. -/
def DeepZoomGenerator.emitTile (dz : DeepZoomGenerator) (level col row : Int) : Tile :=
  match dz.TileAt level col row with
  | .ok t => t
  | .error _ => Tile.zero

/-- Embeds the emitted-tile sequence of `Iter` (deepzoom.go lines 58–79) in
the absence of cancellation: three nested loops over level, row, col. -/
def DeepZoomGenerator.iterTiles (dz : DeepZoomGenerator) : List Tile :=
  (List.range dz.LevelsCount).flatMap fun (level : Nat) =>
    (List.range (dz.Level level).y.toNat).flatMap fun (row : Nat) =>
      (List.range (dz.Level level).x.toNat).map fun (col : Nat) =>
        dz.emitTile (level : Int) (col : Int) (row : Int)

/-- Strict enumeration order of `Iter`: ascending level, then ascending row,
then ascending column. -/
def tileLT (a b : Tile) : Prop :=
  a.level < b.level ∨
    (a.level = b.level ∧ (a.row < b.row ∨ (a.row = b.row ∧ a.col < b.col)))

/-- A concrete source image for exercising the bounds-restriction path: a
single native level of 1000×1000 pixels, declared bounds 500×500 at offset
(100, 200), downsample 1. -/
def boundsSlide : WSI :=
  { levelCount := 1
    levelDimensions := fun _ => (1000, 1000)
    levelDownsample := fun _ => 1
    bestLevelForDownsample := fun _ => 0
    propertyValue := fun name =>
      if name = PropertyBoundsX then "100"
      else if name = PropertyBoundsY then "200" else ""
    propertyValueWithDefault := fun name dflt =>
      if name = PropertyBoundsWidth then "500"
      else if name = PropertyBoundsHeight then "500" else dflt }

/-- A neutral source image whose single native level is 1024×512 with
downsample 1. -/
def flatSlide : WSI :=
  { levelCount := 1
    levelDimensions := fun _ => (1024, 512)
    levelDownsample := fun _ => 1
    bestLevelForDownsample := fun _ => 0
    propertyValue := fun _ => ""
    propertyValueWithDefault := fun _ dflt => dflt }

/-- The downsample binding of `sampleDZ`: native level 0 of 1024×512 with
downsample 1 and residual (best level) downsample 1. -/
def sampleDS : Downsample :=
  { slideLevel := { level := 0, downsample := 1, pt := Pt.mk 1024 512 }
    bestLevelDownsample := 1 }

/-- A concrete generator used by several witnesses: tileSize 512, overlap 1,
a single virtual level of 1024×512 pixels giving a 2×1 tile grid, reading
from a native level of 1024×512 with downsample 1 and residual downsample 1. -/
def sampleDZ : DeepZoomGenerator :=
  { wsi := flatSlide
    tileSize := 512
    overlap := 1
    limitBounds := false
    deepZoomTileLevels := [Pt.mk 2 1]
    deepZoomLevels := [Pt.mk 1024 512]
    level0Offset := Pt.zero
    levels := [Pt.mk 1024 512]
    downsamples := [sampleDS] }

/-- The tile info produced by `sampleDZ` for tile (0, 0, 0). -/
def tiSample : TileInfo :=
  { l0Location := Pt.mk 0 0, lSize := Pt.mk 513 512, zSize := Pt.mk 513 512, slideLevel := 0 }

/-- A degenerate 1×1 source used to evaluate the constructed generator. -/
def unitSlide : WSI :=
  { levelCount := 1
    levelDimensions := fun _ => (1, 1)
    levelDownsample := fun _ => 1
    bestLevelForDownsample := fun _ => 0
    propertyValue := fun _ => ""
    propertyValueWithDefault := fun _ dflt => dflt }

/-- A source with bounds restriction metadata missing: the bounds-x property
is the empty string and bounds-y is not numeric. -/
def noBoundsSlide : WSI :=
  { levelCount := 1
    levelDimensions := fun _ => (100, 100)
    levelDownsample := fun _ => 1
    bestLevelForDownsample := fun _ => 0
    propertyValue := fun name => if name = PropertyBoundsY then "abc" else ""
    propertyValueWithDefault := fun _ dflt => dflt }

/-! Shared arithmetic facts about `ceilDivQ`. -/

theorem le_ceilDivQ_mul (a b : Int) (hb : 0 < b) : a ≤ ceilDivQ a b * b := by
  have h := Int.le_ceil ((a : ℚ) / (b : ℚ))
  have hbq : (0 : ℚ) < (b : ℚ) := by exact_mod_cast hb
  rw [div_le_iff₀ hbq] at h
  have : (a : ℚ) ≤ ((ceilDivQ a b * b : Int) : ℚ) := by
    push_cast
    simpa [ceilDivQ] using h
  exact_mod_cast this

theorem ceilDivQ_sub_one_mul_lt (a b : Int) (hb : 0 < b) : (ceilDivQ a b - 1) * b < a := by
  have h := Int.ceil_lt_add_one ((a : ℚ) / (b : ℚ))
  have hbq : (0 : ℚ) < (b : ℚ) := by exact_mod_cast hb
  have h2 : ((⌈(a : ℚ) / (b : ℚ)⌉ : Int) : ℚ) - 1 < (a : ℚ) / (b : ℚ) := by linarith
  rw [lt_div_iff₀ hbq] at h2
  have : (((ceilDivQ a b - 1) * b : Int) : ℚ) < (a : ℚ) := by
    push_cast
    simpa [ceilDivQ] using h2
  exact_mod_cast this

theorem one_le_ceilDivQ (a b : Int) (hb : 0 < b) (ha : 0 < a) : 1 ≤ ceilDivQ a b := by
  have hq : (0 : ℚ) < (a : ℚ) / (b : ℚ) :=
    div_pos (by exact_mod_cast ha) (by exact_mod_cast hb)
  have := Int.ceil_pos.mpr hq
  simp only [ceilDivQ]
  omega

/-! Structure of the halving chain built by `getDeepZoomLevels`. -/

theorem dzChainDown_ne_nil (p : Pt) : dzChainDown p ≠ [] := by
  rw [dzChainDown]
  split <;> simp

theorem dzChainDown_head (p : Pt) : (dzChainDown p).head? = some p := by
  rw [dzChainDown]
  split <;> rfl

theorem dzChainDown_getLast_le (p : Pt) :
    ∀ q, (dzChainDown p).getLast? = some q → q.x ≤ 1 ∧ q.y ≤ 1 := by
  induction p using dzChainDown.induct with
  | case1 p h =>
    intro q hq
    rw [dzChainDown, if_pos h] at hq
    simp at hq
    subst hq
    exact h
  | case2 p h ih =>
    intro q hq
    rw [dzChainDown, if_neg h] at hq
    obtain ⟨c, cs, hc⟩ := List.exists_cons_of_ne_nil (dzChainDown_ne_nil (dzHalve p))
    rw [hc, List.getLast?_cons_cons, ← hc] at hq
    exact ih q hq

theorem dzChainDown_chain' (p : Pt) :
    List.Chain' (fun a b => b = dzHalve a) (dzChainDown p) := by
  induction p using dzChainDown.induct with
  | case1 p h =>
    rw [dzChainDown, if_pos h]
    simp
  | case2 p h ih =>
    rw [dzChainDown, if_neg h, List.chain'_cons']
    refine ⟨?_, ih⟩
    intro b hb
    rw [dzChainDown_head] at hb
    exact (Option.some_injective _ hb).symm

theorem dzChainDown_all_pos (p : Pt) (hx : 1 ≤ p.x) (hy : 1 ≤ p.y) :
    ∀ q ∈ dzChainDown p, 1 ≤ q.x ∧ 1 ≤ q.y := by
  induction p using dzChainDown.induct with
  | case1 p h =>
    intro q hq
    rw [dzChainDown, if_pos h] at hq
    simp at hq
    subst hq
    exact ⟨hx, hy⟩
  | case2 p h ih =>
    intro q hq
    rw [dzChainDown, if_neg h] at hq
    rcases List.mem_cons.mp hq with hq | hq
    · subst hq; exact ⟨hx, hy⟩
    · exact ih (le_max_left _ _) (le_max_left _ _) q hq

theorem dzHalve_eq_of_pos (q : Pt) (hx : 1 ≤ q.x) (hy : 1 ≤ q.y) :
    dzHalve q = Pt.mk (ceilDivQ q.x 2) (ceilDivQ q.y 2) := by
  have h1 : 1 ≤ ceilDivQ q.x 2 := one_le_ceilDivQ _ _ (by omega) (by omega)
  have h2 : 1 ≤ ceilDivQ q.y 2 := one_le_ceilDivQ _ _ (by omega) (by omega)
  simp [dzHalve, max_eq_right h1, max_eq_right h2]

/-- C1, falsified by the code: with bounds restriction enabled, a native
level-0 of 1000×1000 and declared bounds 500×500, the Go code divides the two
`int`s *before* scaling (`mustStrToInt(...)/l0width`), so the ratio truncates
to 0 and every effective dimension collapses to 0×0 — violating the spec's
invariant `width, height ≥ 1` even though level 0 is at least 1×1 and the
declared bounds are at least 1×1. -/
theorem c1_bounds_ratio_truncates_to_zero :
    getLevelDimensions boundsSlide true = [Pt.mk 0 0] ∧
    ¬(1 ≤ ((getLevelDimensions boundsSlide true).headD Pt.zero).x) :=
  ⟨by decide, by decide⟩

/-- C2, falsified by the code: the level validation uses `dzLevel >
len(dz.downsamples)` instead of `≥`, so the one-past-the-end level
`dzLevel = levelCount` passes validation and the subsequent
`dz.downsamples[dzLevel]` slice access panics at runtime instead of
returning the InvalidLevel error — for every generator. -/
theorem c2_level_eq_count_panics_not_invalid_level (dz : DeepZoomGenerator) :
    dz.tileInfo (dz.downsamples.length : Int) 0 0 = .error .panicIndexOutOfRange ∧
    dz.tileInfo (dz.downsamples.length : Int) 0 0 ≠ .error .invalidLevel := by
  have hc1 : ¬((dz.downsamples.length : Int) < 0 ∨
      (dz.downsamples.length : Int) > (dz.downsamples.length : Int)) := by omega
  have hc2 : ¬((0 : Int) < 0 ∨ (0 : Int) < 0) := by omega
  have hnone : dz.downsamples[((dz.downsamples.length : Int)).toNat]? = none := by
    apply List.getElem?_eq_none
    omega
  have key : dz.tileInfo (dz.downsamples.length : Int) 0 0 = .error .panicIndexOutOfRange := by
    unfold DeepZoomGenerator.tileInfo
    rw [if_neg hc1]
    rw [if_neg hc2]
    rw [hnone]
  refine ⟨key, ?_⟩
  rw [key]
  intro hcontra
  exact absurd (Except.error.inj hcontra) (by decide)

/-- C3: for base dimensions ≥ 1×1 the level chain is non-empty, its first
element is at most 1×1 on both axes, its last element is exactly the base,
each element is the componentwise ceiling of half its successor, and a 1×1
base yields exactly one level. -/
theorem c3_pyramid_level_chain (base : Pt) (hx : 1 ≤ base.x) (hy : 1 ≤ base.y) :
    getDeepZoomLevels base ≠ [] ∧
    (∀ h0, (getDeepZoomLevels base).head? = some h0 → h0.x ≤ 1 ∧ h0.y ≤ 1) ∧
    (getDeepZoomLevels base).getLast? = some base ∧
    (∀ i : Nat, ∀ a b : Pt, (getDeepZoomLevels base)[i]? = some a →
      (getDeepZoomLevels base)[i + 1]? = some b →
      a = Pt.mk (ceilDivQ b.x 2) (ceilDivQ b.y 2)) ∧
    (base = Pt.mk 1 1 → (getDeepZoomLevels base).length = 1) := by
  refine ⟨?_, ?_, ?_, ?_, ?_⟩
  · simp [getDeepZoomLevels, dzChainDown_ne_nil]
  · intro h0 hh0
    rw [getDeepZoomLevels, List.head?_reverse] at hh0
    exact dzChainDown_getLast_le base h0 hh0
  · rw [getDeepZoomLevels, List.getLast?_reverse]
    exact dzChainDown_head base
  · intro i a b ha hb
    have hchain : List.Chain' (fun a b => a = dzHalve b) (getDeepZoomLevels base) := by
      rw [getDeepZoomLevels, List.chain'_reverse]
      exact (dzChainDown_chain' base).imp (fun a b h => h)
    obtain ⟨hia, hga⟩ := List.getElem?_eq_some.mp ha
    obtain ⟨hib, hgb⟩ := List.getElem?_eq_some.mp hb
    have hstep := List.chain'_iff_get.mp hchain i (by omega)
    simp only [List.get_eq_getElem] at hstep
    rw [hga, hgb] at hstep
    have hbmem : b ∈ getDeepZoomLevels base := by
      rw [← hgb]
      exact List.getElem_mem _
    have hbpos : 1 ≤ b.x ∧ 1 ≤ b.y := by
      rw [getDeepZoomLevels, List.mem_reverse] at hbmem
      exact dzChainDown_all_pos base hx hy b hbmem
    rw [hstep]
    exact dzHalve_eq_of_pos b hbpos.1 hbpos.2
  · intro hbase
    subst hbase
    rw [getDeepZoomLevels, dzChainDown]
    simp

/-- Witness for C3 at the concrete base 2×2. -/
theorem c3_pyramid_level_chain_witness :
    (1 ≤ (Pt.mk 2 2).x ∧ 1 ≤ (Pt.mk 2 2).y) ∧
    (getDeepZoomLevels (Pt.mk 2 2) ≠ [] ∧
    (∀ h0, (getDeepZoomLevels (Pt.mk 2 2)).head? = some h0 → h0.x ≤ 1 ∧ h0.y ≤ 1) ∧
    (getDeepZoomLevels (Pt.mk 2 2)).getLast? = some (Pt.mk 2 2) ∧
    (∀ i : Nat, ∀ a b : Pt, (getDeepZoomLevels (Pt.mk 2 2))[i]? = some a →
      (getDeepZoomLevels (Pt.mk 2 2))[i + 1]? = some b →
      a = Pt.mk (ceilDivQ b.x 2) (ceilDivQ b.y 2)) ∧
    (Pt.mk 2 2 = Pt.mk 1 1 → (getDeepZoomLevels (Pt.mk 2 2)).length = 1)) :=
  ⟨⟨by decide, by decide⟩, c3_pyramid_level_chain (Pt.mk 2 2) (by decide) (by decide)⟩

/-- C4: the tile-grid counts of `tileCount` cover each level exactly:
`cols·tileSize ≥ width`, `(cols−1)·tileSize < width`, and `cols ≥ 1`, and the
same for rows, whenever the level is at least 1×1 and `tileSize > 0`. -/
theorem c4_tile_grid_counts (tileSize w h : Int)
    (ht : 0 < tileSize) (hw : 1 ≤ w) (hh : 1 ≤ h) :
    w ≤ tileCount tileSize w * tileSize ∧ (tileCount tileSize w - 1) * tileSize < w ∧
    1 ≤ tileCount tileSize w ∧
    h ≤ tileCount tileSize h * tileSize ∧ (tileCount tileSize h - 1) * tileSize < h ∧
    1 ≤ tileCount tileSize h := by
  refine ⟨?_, ?_, ?_, ?_, ?_, ?_⟩
  · exact le_ceilDivQ_mul w tileSize ht
  · exact ceilDivQ_sub_one_mul_lt w tileSize ht
  · exact one_le_ceilDivQ w tileSize ht (by omega)
  · exact le_ceilDivQ_mul h tileSize ht
  · exact ceilDivQ_sub_one_mul_lt h tileSize ht
  · exact one_le_ceilDivQ h tileSize ht (by omega)

/-- Witness for C4 at tileSize 512 and a 1000×1000 level. -/
theorem c4_tile_grid_counts_witness :
    (0 < (512 : Int) ∧ 1 ≤ (1000 : Int) ∧ 1 ≤ (1000 : Int)) ∧
    ((1000 : Int) ≤ tileCount 512 1000 * 512 ∧ (tileCount 512 1000 - 1) * 512 < 1000 ∧
    1 ≤ tileCount 512 1000 ∧
    (1000 : Int) ≤ tileCount 512 1000 * 512 ∧ (tileCount 512 1000 - 1) * 512 < 1000 ∧
    1 ≤ tileCount 512 1000) :=
  ⟨⟨by decide, by decide, by decide⟩, c4_tile_grid_counts 512 1000 1000 (by decide) (by decide) (by decide)⟩

/-! Reconstruction of a level from its unpadded tile extents (claim C5). -/

theorem sum_zTileExtent_full (t w : Int) (ht : 0 < t) :
    ∀ n : Nat, (n : Int) * t ≤ w →
      (∑ col ∈ Finset.range n, zTileExtent t w (col : Int)) = (n : Int) * t := by
  intro n
  induction n with
  | zero => simp
  | succ m ih =>
    intro hle
    have hexp : ((m + 1 : Nat) : Int) * t = (m : Int) * t + t := by push_cast; ring
    rw [hexp] at hle
    have hm : (m : Int) * t ≤ w := by linarith
    rw [Finset.sum_range_succ, ih hm]
    have hcomm : t * (m : Int) = (m : Int) * t := mul_comm _ _
    have hterm : zTileExtent t w (m : Int) = t := by
      unfold zTileExtent
      apply min_eq_left
      linarith
    rw [hterm, hexp]

theorem sum_zTileExtent_eq (t w : Int) (ht : 0 < t) (hw : 1 ≤ w) :
    (∑ col ∈ Finset.range (tileCount t w).toNat, zTileExtent t w (col : Int)) = w := by
  have hcols : 1 ≤ tileCount t w := one_le_ceilDivQ w t ht (by omega)
  have hcover : w ≤ tileCount t w * t := le_ceilDivQ_mul w t ht
  have hlast : (tileCount t w - 1) * t < w := ceilDivQ_sub_one_mul_lt w t ht
  obtain ⟨m, hm⟩ : ∃ m : Nat, (tileCount t w).toNat = m + 1 := ⟨(tileCount t w).toNat - 1, by omega⟩
  have hmInt : (m : Int) = tileCount t w - 1 := by omega
  rw [hm, Finset.sum_range_succ]
  have hfull : (∑ col ∈ Finset.range m, zTileExtent t w (col : Int)) = (m : Int) * t := by
    apply sum_zTileExtent_full t w ht
    rw [hmInt]
    linarith
  rw [hfull]
  have hsplit : tileCount t w * t = (tileCount t w - 1) * t + t := by ring
  have hterm : zTileExtent t w (m : Int) = w - t * (m : Int) := by
    unfold zTileExtent
    apply min_eq_right
    have h1 : t * (m : Int) = (tileCount t w - 1) * t := by rw [hmInt]; ring
    linarith
  rw [hterm, hmInt]
  ring

/-- C5: summing the unpadded tile extents `min(tileSize, dim − tileSize·coord)`
over the whole grid row (resp. column) reconstructs exactly the level width
(resp. height). -/
theorem c5_unpadded_tiles_reconstruct_level (t w h : Int)
    (ht : 0 < t) (hw : 1 ≤ w) (hh : 1 ≤ h) :
    (∑ col ∈ Finset.range (tileCount t w).toNat, zTileExtent t w (col : Int)) = w ∧
    (∑ row ∈ Finset.range (tileCount t h).toNat, zTileExtent t h (row : Int)) = h :=
  ⟨sum_zTileExtent_eq t w ht hw, sum_zTileExtent_eq t h ht hh⟩

/-- Witness for C5 at tileSize 512 and a 1000×1000 level. -/
theorem c5_unpadded_tiles_reconstruct_level_witness :
    (0 < (512 : Int) ∧ 1 ≤ (1000 : Int) ∧ 1 ≤ (1000 : Int)) ∧
    ((∑ col ∈ Finset.range (tileCount 512 1000).toNat, zTileExtent 512 1000 (col : Int)) = 1000 ∧
     (∑ row ∈ Finset.range (tileCount 512 1000).toNat, zTileExtent 512 1000 (row : Int)) = 1000) :=
  ⟨⟨by decide, by decide, by decide⟩,
    c5_unpadded_tiles_reconstruct_level 512 1000 1000 (by decide) (by decide) (by decide)⟩

theorem overlap_mul_boolToInt (a b o : Int) : o * boolToInt (a != b) = if a = b then 0 else o := by
  by_cases h : a = b <;> simp [boolToInt, h]

/-- C6: overlap padding is applied on interior edges only — the left/top
overlap is 0 exactly on the first column/row, the right/bottom overlap is 0
exactly on the last column/row, and every interior edge gets exactly the
fixed overlap; concretely, with tileSize 512, overlap 1 and a level 1024
pixels wide (2 columns), both columns produce outputSize.x = 513. -/
theorem c6_overlap_interior_edges_only :
    (∀ dim : Pt, ∀ o c r : Int,
      ((getDeepZoomOverlap dim o c r).left = if c = 0 then 0 else o) ∧
      ((getDeepZoomOverlap dim o c r).top = if r = 0 then 0 else o) ∧
      ((getDeepZoomOverlap dim o c r).right = if c = dim.x - 1 then 0 else o) ∧
      ((getDeepZoomOverlap dim o c r).bottom = if r = dim.y - 1 then 0 else o)) ∧
    (sampleDZ.tileInfo 0 0 0).map (fun ti => ti.zSize.x) = .ok 513 ∧
    (sampleDZ.tileInfo 0 1 0).map (fun ti => ti.zSize.x) = .ok 513 := by
  refine ⟨?_, ?_, ?_⟩
  · intro dim o c r
    refine ⟨?_, ?_, ?_, ?_⟩ <;> simp [getDeepZoomOverlap, overlap_mul_boolToInt]
  · rfl
  · rfl

/-- C7: inside the tile grid, the clamped source rectangle never extends past
the chosen native level: `⌈lLocation⌉ + lSize` is bounded by the native
level's dimensions on both axes. -/
theorem c7_source_rect_within_native_level (dz : DeepZoomGenerator) (dzLevel col row : Int)
    (ds : Downsample) (gridDim : Pt)
    (hds : dz.downsamples[dzLevel.toNat]? = some ds)
    (hgrid : dz.deepZoomTileLevels[dzLevel.toNat]? = some gridDim)
    (hl : 0 ≤ dzLevel) (hc0 : 0 ≤ col) (hcU : col < gridDim.x)
    (hr0 : 0 ≤ row) (hrU : row < gridDim.y)
    (ti : TileInfo) (hti : dz.tileInfo dzLevel col row = .ok ti) :
    ⌈lLocationX ds dz.tileSize col (getDeepZoomOverlap gridDim dz.overlap col row)⌉ + ti.lSize.x
        ≤ ds.slideLevel.pt.x ∧
    ⌈lLocationY ds dz.tileSize row (getDeepZoomOverlap gridDim dz.overlap col row)⌉ + ti.lSize.y
        ≤ ds.slideLevel.pt.y := by
  have hlen : dzLevel.toNat < dz.downsamples.length := (List.getElem?_eq_some.mp hds).1
  have hn1 : ¬(dzLevel < 0 ∨ dzLevel > (dz.downsamples.length : Int)) := by omega
  have hn2 : ¬(col < 0 ∨ row < 0) := by omega
  unfold DeepZoomGenerator.tileInfo at hti
  rw [if_neg hn1, if_neg hn2, hds, hgrid] at hti
  rcases h3 : dz.deepZoomLevels[dzLevel.toNat]? with _ | levelDim <;> rw [h3] at hti
  · cases hti
  · have hv := Except.ok.inj hti
    rw [← hv]
    dsimp only
    constructor
    · have := min_le_right
        ⌈ds.bestLevelDownsample *
          ((zTileExtent dz.tileSize levelDim.x col +
            (getDeepZoomOverlap gridDim dz.overlap col row).left +
            (getDeepZoomOverlap gridDim dz.overlap col row).right : Int) : ℚ)⌉
        (ds.slideLevel.pt.x -
          ⌈lLocationX ds dz.tileSize col (getDeepZoomOverlap gridDim dz.overlap col row)⌉)
      omega
    · have := min_le_right
        ⌈ds.bestLevelDownsample *
          ((zTileExtent dz.tileSize levelDim.y row +
            (getDeepZoomOverlap gridDim dz.overlap col row).top +
            (getDeepZoomOverlap gridDim dz.overlap col row).bottom : Int) : ℚ)⌉
        (ds.slideLevel.pt.y -
          ⌈lLocationY ds dz.tileSize row (getDeepZoomOverlap gridDim dz.overlap col row)⌉)
      omega

theorem sampleDZ_tileInfo_000 : sampleDZ.tileInfo 0 0 0 = .ok tiSample := by
  simp [sampleDZ, sampleDS, tiSample, DeepZoomGenerator.tileInfo, lLocationX, lLocationY,
    getDeepZoomOverlap, boolToInt, zTileExtent, ratTrunc, Pt.zero]

/-- Witness for C7 at the concrete generator `sampleDZ`, tile (0, 0, 0). -/
theorem c7_source_rect_within_native_level_witness :
    (sampleDZ.downsamples[(0 : Int).toNat]? = some sampleDS ∧
     sampleDZ.deepZoomTileLevels[(0 : Int).toNat]? = some (Pt.mk 2 1) ∧
     (0 : Int) ≤ 0 ∧ (0 : Int) < (Pt.mk 2 1).x ∧ (0 : Int) < (Pt.mk 2 1).y ∧
     sampleDZ.tileInfo 0 0 0 = .ok tiSample) ∧
    (⌈lLocationX sampleDS sampleDZ.tileSize 0 (getDeepZoomOverlap (Pt.mk 2 1) sampleDZ.overlap 0 0)⌉ +
        tiSample.lSize.x ≤ sampleDS.slideLevel.pt.x ∧
     ⌈lLocationY sampleDS sampleDZ.tileSize 0 (getDeepZoomOverlap (Pt.mk 2 1) sampleDZ.overlap 0 0)⌉ +
        tiSample.lSize.y ≤ sampleDS.slideLevel.pt.y) :=
  ⟨⟨rfl, rfl, by decide, by decide, by decide, sampleDZ_tileInfo_000⟩,
    c7_source_rect_within_native_level sampleDZ 0 0 0 sampleDS (Pt.mk 2 1) rfl rfl
      (by decide) (by decide) (by decide) (by decide) (by decide)
      tiSample sampleDZ_tileInfo_000⟩

/-! In-bounds tile lookups always succeed (claim C9). -/

theorem tileInfo_ok_of_inbounds (dz : DeepZoomGenerator)
    (hlen1 : dz.deepZoomTileLevels.length = dz.downsamples.length)
    (hlen2 : dz.deepZoomLevels.length = dz.downsamples.length)
    (level col row : Int) (h0 : 0 ≤ level) (h1 : level < (dz.downsamples.length : Int))
    (h2 : 0 ≤ col) (h3 : 0 ≤ row) :
    ∃ ti, dz.tileInfo level col row = .ok ti := by
  have hb : level.toNat < dz.downsamples.length := by omega
  have hn1 : ¬(level < 0 ∨ level > (dz.downsamples.length : Int)) := by omega
  have hn2 : ¬(col < 0 ∨ row < 0) := by omega
  unfold DeepZoomGenerator.tileInfo
  rw [if_neg hn1, if_neg hn2, List.getElem?_eq_getElem hb,
    List.getElem?_eq_getElem (show level.toNat < dz.deepZoomTileLevels.length by omega),
    List.getElem?_eq_getElem (show level.toNat < dz.deepZoomLevels.length by omega)]
  exact ⟨_, rfl⟩

theorem NewDeepZoomGenerator_tileLevels_length (slide : WSI) (t o : Int) (b : Bool) :
    (NewDeepZoomGenerator slide t o b).deepZoomTileLevels.length =
      (NewDeepZoomGenerator slide t o b).downsamples.length := by
  simp [NewDeepZoomGenerator, generateDownsamples, getDeepZoomTileLevels]

theorem NewDeepZoomGenerator_levels_length (slide : WSI) (t o : Int) (b : Bool) :
    (NewDeepZoomGenerator slide t o b).deepZoomLevels.length =
      (NewDeepZoomGenerator slide t o b).downsamples.length := by
  simp [NewDeepZoomGenerator, generateDownsamples, getDeepZoomTileLevels]

/-- C9: for every (level, col, row) the enumerator's loops can generate on a
constructed generator — level inside [0, levelCount), col and row inside that
level's grid — the tile lookup reaches neither of its error branches. -/
theorem c9_enumerated_triples_never_error (slide : WSI) (t o : Int) (b : Bool)
    (level col row : Int)
    (h0 : 0 ≤ level)
    (h1 : level < ((NewDeepZoomGenerator slide t o b).LevelsCount : Int))
    (h2 : 0 ≤ col)
    (h3 : col < ((NewDeepZoomGenerator slide t o b).Level level.toNat).x)
    (h4 : 0 ≤ row)
    (h5 : row < ((NewDeepZoomGenerator slide t o b).Level level.toNat).y) :
    ∃ ti, (NewDeepZoomGenerator slide t o b).tileInfo level col row = .ok ti :=
  tileInfo_ok_of_inbounds _ (NewDeepZoomGenerator_tileLevels_length slide t o b)
    (NewDeepZoomGenerator_levels_length slide t o b) level col row h0 h1 h2 h4

theorem dzChainDown_unit : dzChainDown (Pt.mk 1 1) = [Pt.mk 1 1] := by
  rw [dzChainDown]
  norm_num

theorem getLevelDimensions_unit : getLevelDimensions unitSlide false = [Pt.mk 1 1] := by decide

theorem unitDZ_LevelsCount : (NewDeepZoomGenerator unitSlide 512 1 false).LevelsCount = 1 := by
  simp only [NewDeepZoomGenerator, DeepZoomGenerator.LevelsCount, getLevelDimensions_unit,
    List.headD_cons, getDeepZoomLevels, dzChainDown_unit, List.reverse_cons, List.reverse_nil,
    List.nil_append, getDeepZoomTileLevels, List.map_cons, List.map_nil, generateDownsamples,
    List.length_map, List.length_range, List.length_cons, List.length_nil]

theorem tileCount_512_1 : tileCount 512 1 = 1 := by
  rw [tileCount, ceilDivQ, Int.ceil_eq_iff]
  norm_num

theorem unitDZ_Level0 : (NewDeepZoomGenerator unitSlide 512 1 false).Level 0 = Pt.mk 1 1 := by
  simp only [NewDeepZoomGenerator, DeepZoomGenerator.Level, getLevelDimensions_unit,
    List.headD_cons, getDeepZoomLevels, dzChainDown_unit, List.reverse_cons, List.reverse_nil,
    List.nil_append, getDeepZoomTileLevels, List.map_cons, List.map_nil, tileCount_512_1,
    List.getD_cons_zero]

/-- Witness for C9 on the generator built from the 1×1 source. -/
theorem c9_enumerated_triples_never_error_witness :
    ((0 : Int) ≤ 0 ∧
     (0 : Int) < ((NewDeepZoomGenerator unitSlide 512 1 false).LevelsCount : Int) ∧
     (0 : Int) < ((NewDeepZoomGenerator unitSlide 512 1 false).Level (0 : Int).toNat).x ∧
     (0 : Int) < ((NewDeepZoomGenerator unitSlide 512 1 false).Level (0 : Int).toNat).y) ∧
    (∃ ti, (NewDeepZoomGenerator unitSlide 512 1 false).tileInfo 0 0 0 = .ok ti) :=
  ⟨⟨by decide,
    by rw [unitDZ_LevelsCount]; decide,
    by simp only [Int.toNat_zero, unitDZ_Level0]; decide,
    by simp only [Int.toNat_zero, unitDZ_Level0]; decide⟩,
   c9_enumerated_triples_never_error unitSlide 512 1 false 0 0 0 (by decide)
     (by rw [unitDZ_LevelsCount]; decide) (by decide)
     (by simp only [Int.toNat_zero, unitDZ_Level0]; decide) (by decide)
     (by simp only [Int.toNat_zero, unitDZ_Level0]; decide)⟩

/-- C10: when bounds restriction is enabled but the bounds-x / bounds-y
property is absent or not a parseable integer, construction still succeeds:
the string conversion yields 0, the level-0 offset component becomes 0, and
every tile lookup is computed with that zero offset. -/
theorem c10_unparseable_bounds_silently_zero (slide : WSI) (t o : Int) (sx sy : String)
    (hx : slide.propertyValue PropertyBoundsX = sx)
    (hy : slide.propertyValue PropertyBoundsY = sy)
    (hpx : atoiQ sx = none) (hpy : atoiQ sy = none) :
    mustStrToInt sx = 0 ∧ mustStrToInt sy = 0 ∧
    (NewDeepZoomGenerator slide t o true).level0Offset = Pt.zero ∧
    (∀ level col row : Int,
      (NewDeepZoomGenerator slide t o true).tileInfo level col row =
        DeepZoomGenerator.tileInfo
          { NewDeepZoomGenerator slide t o true with level0Offset := Pt.zero }
          level col row) := by
  have m1 : mustStrToInt sx = 0 := by rw [mustStrToInt, hpx]; rfl
  have m2 : mustStrToInt sy = 0 := by rw [mustStrToInt, hpy]; rfl
  have hoff : (NewDeepZoomGenerator slide t o true).level0Offset = Pt.zero := by
    simp [NewDeepZoomGenerator, getLevel0Offset, hx, hy, m1, m2, Pt.zero]
  refine ⟨m1, m2, hoff, ?_⟩
  intro level col row
  have hsame : ({ NewDeepZoomGenerator slide t o true with level0Offset := Pt.zero } :
      DeepZoomGenerator) = NewDeepZoomGenerator slide t o true := by
    rw [← hoff]
  rw [hsame]

/-- Witness for C10 on a source with absent/garbage bounds properties. -/
theorem c10_unparseable_bounds_silently_zero_witness :
    (noBoundsSlide.propertyValue PropertyBoundsX = "" ∧
     noBoundsSlide.propertyValue PropertyBoundsY = "abc" ∧
     atoiQ "" = none ∧ atoiQ "abc" = none) ∧
    (mustStrToInt "" = 0 ∧ mustStrToInt "abc" = 0 ∧
     (NewDeepZoomGenerator noBoundsSlide 512 1 true).level0Offset = Pt.zero ∧
     (∀ level col row : Int,
       (NewDeepZoomGenerator noBoundsSlide 512 1 true).tileInfo level col row =
         DeepZoomGenerator.tileInfo
           { NewDeepZoomGenerator noBoundsSlide 512 1 true with level0Offset := Pt.zero }
           level col row)) :=
  ⟨⟨rfl, rfl, rfl, rfl⟩,
    c10_unparseable_bounds_silently_zero noBoundsSlide 512 1 "" "abc" rfl rfl rfl rfl⟩

/-! The tile enumeration (claim C8). -/

theorem foldl_add_eq_sum (l : List Pt) (g : Pt → Int) :
    ∀ init : Int, l.foldl (fun s d => s + g d) init = init + (l.map g).sum := by
  induction l with
  | nil => intro init; simp
  | cons a t ih => intro init; simp [ih, add_assoc]

theorem TileCount_eq_sum (dz : DeepZoomGenerator) :
    dz.TileCount = (dz.deepZoomTileLevels.map (fun d => d.x * d.y)).sum := by
  rw [DeepZoomGenerator.TileCount, foldl_add_eq_sum]
  simp

theorem range_map_getD {α β : Type} (l : List α) (d : α) (g : α → β) :
    (List.range l.length).map (fun i => g (l.getD i d)) = l.map g := by
  apply List.ext_getElem
  · simp
  · intro i hi1 hi2
    simp only [List.getElem_map, List.getElem_range]
    rw [List.getD_eq_getElem]

theorem emitTile_eq (dz : DeepZoomGenerator)
    (hlen1 : dz.deepZoomTileLevels.length = dz.downsamples.length)
    (hlen2 : dz.deepZoomLevels.length = dz.downsamples.length)
    (level col row : Int) (h0 : 0 ≤ level) (h1 : level < (dz.downsamples.length : Int))
    (h2 : 0 ≤ col) (h3 : 0 ≤ row) :
    ∃ ti, dz.emitTile level col row =
      { level := level, row := row, col := col, info := ti } := by
  obtain ⟨ti, hti⟩ := tileInfo_ok_of_inbounds dz hlen1 hlen2 level col row h0 h1 h2 h3
  refine ⟨ti, ?_⟩
  simp [DeepZoomGenerator.emitTile, DeepZoomGenerator.TileAt, hti]

theorem mem_levelBlock (dz : DeepZoomGenerator)
    (hlen1 : dz.deepZoomTileLevels.length = dz.downsamples.length)
    (hlen2 : dz.deepZoomLevels.length = dz.downsamples.length)
    (level : Nat) (hlevel : level < dz.downsamples.length) (a : Tile)
    (ha : a ∈ (List.range (dz.Level level).y.toNat).flatMap fun (row : Nat) =>
        (List.range (dz.Level level).x.toNat).map fun (col : Nat) =>
          dz.emitTile (level : Int) (col : Int) (row : Int)) :
    ∃ r c : Nat, r < (dz.Level level).y.toNat ∧ c < (dz.Level level).x.toNat ∧
      a.level = (level : Int) ∧ a.row = (r : Int) ∧ a.col = (c : Int) := by
  rw [List.mem_flatMap] at ha
  obtain ⟨r, hr, ha⟩ := ha
  rw [List.mem_map] at ha
  obtain ⟨c, hc, rfl⟩ := ha
  rw [List.mem_range] at hr hc
  obtain ⟨ti, hemit⟩ := emitTile_eq dz hlen1 hlen2 level c r
    (by positivity) (by exact_mod_cast hlevel) (by positivity) (by positivity)
  exact ⟨r, c, hr, hc, by rw [hemit], by rw [hemit], by rw [hemit]⟩

theorem pairwise_range_flatMap {α : Type} (R : α → α → Prop) (n : Nat) (f : Nat → List α)
    (h1 : ∀ i, i < n → List.Pairwise R (f i))
    (h2 : ∀ i j, i < j → j < n → ∀ a ∈ f i, ∀ b ∈ f j, R a b) :
    List.Pairwise R ((List.range n).flatMap f) := by
  induction n with
  | zero => simp
  | succ m ih =>
    rw [List.range_succ, List.flatMap_append, List.pairwise_append]
    refine ⟨ih (fun i hi => h1 i (by omega)) (fun i j hij hj => h2 i j hij (by omega)), ?_, ?_⟩
    · simp only [List.flatMap_cons, List.flatMap_nil, List.append_nil]
      exact h1 m (by omega)
    · intro a ha b hb
      rw [List.mem_flatMap] at ha
      obtain ⟨i, hi, hai⟩ := ha
      simp only [List.flatMap_cons, List.flatMap_nil, List.append_nil] at hb
      exact h2 i m (List.mem_range.mp hi) (by omega) a hai b hb

theorem sum_map_indicator (n k : Nat) (g : Nat → Nat) (hk : k < n)
    (hzero : ∀ i, i < n → i ≠ k → g i = 0) (hone : g k = 1) :
    ((List.range n).map g).sum = 1 := by
  induction n with
  | zero => omega
  | succ m ih =>
    rw [List.range_succ, List.map_append, List.sum_append]
    by_cases hkm : k = m
    · subst hkm
      have hz : ((List.range k).map g).sum = 0 := by
        apply List.sum_eq_zero
        intro x hx
        rw [List.mem_map] at hx
        obtain ⟨i, hi, rfl⟩ := hx
        rw [List.mem_range] at hi
        exact hzero i (by omega) (by omega)
      simp [hz, hone]
    · rw [ih (by omega) (fun i hi hik => hzero i (by omega) hik)]
      have hz : g m = 0 := hzero m (by omega) (fun h => hkm h.symm)
      simp [hz]

/-- C8: the enumeration emits exactly one tile for every in-bounds
(level, col, row), in strictly ascending (level, row, col) order, and its
total length equals the reported total tile count. -/
theorem c8_enumeration_order_and_count (dz : DeepZoomGenerator)
    (hlen1 : dz.deepZoomTileLevels.length = dz.downsamples.length)
    (hlen2 : dz.deepZoomLevels.length = dz.downsamples.length)
    (hnn : ∀ p ∈ dz.deepZoomTileLevels, 0 ≤ p.x ∧ 0 ≤ p.y) :
    ((dz.iterTiles.length : Int) = dz.TileCount) ∧
    List.Pairwise tileLT dz.iterTiles ∧
    (∀ L C R : Int, 0 ≤ L → L < (dz.LevelsCount : Int) →
      0 ≤ C → C < (dz.Level L.toNat).x → 0 ≤ R → R < (dz.Level L.toNat).y →
      dz.iterTiles.countP
        (fun tl => tl.level == L && tl.row == R && tl.col == C) = 1) := by
  have hL : dz.LevelsCount = dz.deepZoomTileLevels.length := hlen1.symm
  refine ⟨?_, ?_, ?_⟩
  · -- total length equals TileCount
    have hlen : dz.iterTiles.length =
        ((List.range dz.LevelsCount).map
          (fun level => (dz.Level level).y.toNat * (dz.Level level).x.toNat)).sum := by
      rw [DeepZoomGenerator.iterTiles, List.length_flatMap]
      congr 1
      apply List.map_congr_left
      intro level hlevel
      simp [Function.comp_def, List.length_flatMap, List.map_map, List.length_map,
        List.length_range, List.map_const', List.sum_replicate, smul_eq_mul]
    rw [hlen, TileCount_eq_sum, Nat.cast_list_sum, List.map_map, hL,
      ← range_map_getD dz.deepZoomTileLevels Pt.zero (fun d => d.x * d.y)]
    apply congrArg
    apply List.map_congr_left
    intro i hi
    rw [List.mem_range] at hi
    have hmem : dz.deepZoomTileLevels.getD i Pt.zero ∈ dz.deepZoomTileLevels := by
      rw [List.getD_eq_getElem _ _ hi]
      exact List.getElem_mem hi
    obtain ⟨hx, hy⟩ := hnn _ hmem
    simp only [Function.comp, DeepZoomGenerator.Level]
    push_cast [Int.toNat_of_nonneg hx, Int.toNat_of_nonneg hy]
    ring
  · -- strictly ascending (level, row, col)
    rw [DeepZoomGenerator.iterTiles]
    apply pairwise_range_flatMap
    · intro level hlevel
      apply pairwise_range_flatMap
      · intro row hrow
        rw [List.pairwise_map]
        apply (List.pairwise_lt_range _).imp_of_mem
        intro c1 c2 hc1 hc2 hlt
        rw [List.mem_range] at hc1 hc2
        obtain ⟨t1, h1⟩ := emitTile_eq dz hlen1 hlen2 level c1 row
          (by positivity) (by exact_mod_cast hlevel) (by positivity) (by positivity)
        obtain ⟨t2, h2⟩ := emitTile_eq dz hlen1 hlen2 level c2 row
          (by positivity) (by exact_mod_cast hlevel) (by positivity) (by positivity)
        rw [h1, h2, tileLT]
        right
        refine ⟨rfl, Or.inr ⟨rfl, ?_⟩⟩
        show (c1 : Int) < (c2 : Int)
        exact_mod_cast hlt
      · intro r1 r2 hr12 hr2 a ha b hb
        rw [List.mem_map] at ha hb
        obtain ⟨c1, hc1, rfl⟩ := ha
        obtain ⟨c2, hc2, rfl⟩ := hb
        rw [List.mem_range] at hc1 hc2
        obtain ⟨t1, h1⟩ := emitTile_eq dz hlen1 hlen2 level c1 r1
          (by positivity) (by exact_mod_cast hlevel) (by positivity) (by positivity)
        obtain ⟨t2, h2⟩ := emitTile_eq dz hlen1 hlen2 level c2 r2
          (by positivity) (by exact_mod_cast hlevel) (by positivity) (by positivity)
        rw [h1, h2, tileLT]
        right
        refine ⟨rfl, Or.inl ?_⟩
        show (r1 : Int) < (r2 : Int)
        exact_mod_cast hr12
    · intro l1 l2 hl12 hl2 a ha b hb
      obtain ⟨r1, c1, _, _, hal, _, _⟩ := mem_levelBlock dz hlen1 hlen2 l1 (by omega) a ha
      obtain ⟨r2, c2, _, _, hbl, _, _⟩ := mem_levelBlock dz hlen1 hlen2 l2 (by omega) b hb
      rw [tileLT, hal, hbl]
      exact Or.inl (by exact_mod_cast hl12)
  · -- exactly one tile per in-bounds coordinate triple
    intro L C R hL0 hLU hC0 hCU hR0 hRU
    rw [DeepZoomGenerator.iterTiles, List.countP_flatMap]
    apply sum_map_indicator dz.LevelsCount L.toNat _ (by omega)
    · intro level hlevel hne
      simp only [Function.comp]
      rw [List.countP_eq_zero]
      intro a ha
      obtain ⟨r, c, _, _, hal, _, _⟩ := mem_levelBlock dz hlen1 hlen2 level hlevel a ha
      simp only [Bool.and_eq_true, beq_iff_eq]
      rintro ⟨⟨h1, -⟩, -⟩
      rw [hal] at h1
      omega
    · simp only [Function.comp]
      rw [List.countP_flatMap]
      apply sum_map_indicator _ R.toNat _ (by omega)
      · intro row hrow hne
        simp only [Function.comp]
        rw [List.countP_eq_zero]
        intro a ha
        rw [List.mem_map] at ha
        obtain ⟨c, hc, rfl⟩ := ha
        rw [List.mem_range] at hc
        obtain ⟨t1, h1⟩ := emitTile_eq dz hlen1 hlen2 L.toNat c row
          (by positivity) (by omega) (by positivity) (by positivity)
        rw [h1]
        simp only [Bool.and_eq_true, beq_iff_eq]
        rintro ⟨⟨-, h2⟩, -⟩
        omega
      · simp only [Function.comp]
        rw [List.countP_map]
        rw [List.countP_congr (q := fun c => c == C.toNat) ?_]
        · have hnd := List.nodup_range ((dz.Level L.toNat).x.toNat)
          have hmem : C.toNat ∈ List.range ((dz.Level L.toNat).x.toNat) := by
            rw [List.mem_range]
            omega
          have := List.count_eq_one_of_mem hnd hmem
          simpa [List.count] using this
        · intro c hc
          rw [List.mem_range] at hc
          obtain ⟨t1, h1⟩ := emitTile_eq dz hlen1 hlen2 L.toNat c R.toNat
            (by positivity) (by omega) (by positivity) (by positivity)
          simp only [Function.comp, h1, Bool.and_eq_true, beq_iff_eq]
          omega

/-- Witness for C8 on the concrete generator `sampleDZ`. -/
theorem c8_enumeration_order_and_count_witness :
    (sampleDZ.deepZoomTileLevels.length = sampleDZ.downsamples.length ∧
     sampleDZ.deepZoomLevels.length = sampleDZ.downsamples.length ∧
     ∀ p ∈ sampleDZ.deepZoomTileLevels, 0 ≤ p.x ∧ 0 ≤ p.y) ∧
    (((sampleDZ.iterTiles.length : Int) = sampleDZ.TileCount) ∧
     List.Pairwise tileLT sampleDZ.iterTiles ∧
     (∀ L C R : Int, 0 ≤ L → L < (sampleDZ.LevelsCount : Int) →
       0 ≤ C → C < (sampleDZ.Level L.toNat).x → 0 ≤ R → R < (sampleDZ.Level L.toNat).y →
       sampleDZ.iterTiles.countP
         (fun tl => tl.level == L && tl.row == R && tl.col == C) = 1)) :=
  ⟨⟨rfl, rfl, by decide⟩,
    c8_enumeration_order_and_count sampleDZ rfl rfl (by decide)⟩

end Gopenslide
